import Mathlib

/-!
Shallow embedding of the Plaud → Notion sync engine (`src/index.js`) and
verification of the specification's claims about it.

Conventions of the embedding:
* JavaScript strings are modelled as Lean `String`; lengths are counted in
  characters (identical to JS `.length` for the ASCII data used throughout).
* JSON values observed from the network are modelled by the inductive `JVal`
  (JS `undefined` is modelled as an absent field, i.e. `Option.none`; `null`
  as `JVal.jnull`).
* The Notion transport (database query / page create / update / block append)
  is an external collaborator; it is modelled as an explicit page store with
  the query semantics the code relies on (url equality, rich-text substring
  containment, and fail-open on schema mismatch).
* The JS `Date` constructor is an external runtime facility; it is kept
  abstract as a parameter `parse : JVal → Option String` returning the ISO
  rendering of a successfully parsed timestamp, and the build-time clock as a
  parameter `now`.
-/

set_option autoImplicit false

namespace PlaudSync

/-! ## Basic string helpers (JS semantics) -/

/-- JS `Array.prototype.some`-style whitespace test used by `trim` and `\s`. -/
def jsIsWs (c : Char) : Bool := c.isWhitespace

/-- JS `String.prototype.trim` on the character list. -/
def trimChars (l : List Char) : List Char :=
  ((l.dropWhile jsIsWs).reverse.dropWhile jsIsWs).reverse

/-- JS `String.prototype.trim`. -/
def jsTrim (s : String) : String := String.mk (trimChars s.data)

/-- JS `String.prototype.toLowerCase` (ASCII-adequate). -/
def jsLower (s : String) : String := String.mk (s.data.map Char.toLower)

/-- JS `String.prototype.slice(0, n)`. -/
def strTake (s : String) (n : Nat) : String := String.mk (s.data.take n)

/-- JS `String.prototype.includes(pat)`: substring containment. -/
def strContains (hay pat : String) : Bool := decide (pat.data <:+: hay.data)

/-- Concatenation of the plain-text parts of a rich-text value. -/
def concatStrings (l : List String) : String := l.foldl (· ++ ·) ""

/-- The regex test `/^https?:\/\//i` from `buildPlaudRecordingUrl`. -/
def isHttpUrl (s : String) : Bool :=
  "http://".isPrefixOf (jsLower s) || "https://".isPrefixOf (jsLower s)

/-- The `.replace(/\/$/, "")` step of `buildPlaudRecordingUrl`: strips one
trailing slash. -/
def stripTrailingSlash (s : String) : String :=
  if s.data.getLast? = some '/' then String.mk s.data.dropLast else s

/-- Upper-case hexadecimal digit. -/
def hexDigit (n : Nat) : Char :=
  if n < 10 then Char.ofNat (48 + n) else Char.ofNat (55 + n)

/-- UTF-8 bytes of a character (as used by `encodeURIComponent`). -/
def utf8Bytes (c : Char) : List Nat :=
  let n := c.toNat
  if n < 0x80 then [n]
  else if n < 0x800 then [0xC0 + n / 64, 0x80 + n % 64]
  else if n < 0x10000 then
    [0xE0 + n / 4096, 0x80 + n / 64 % 64, 0x80 + n % 64]
  else
    [0xF0 + n / 262144, 0x80 + n / 4096 % 64, 0x80 + n / 64 % 64, 0x80 + n % 64]

/-- Characters left unescaped by JS `encodeURIComponent`. -/
def uriUnreserved (c : Char) : Bool :=
  c.isAlphanum || c = '-' || c = '_' || c = '.' || c = '!' || c = '~' ||
    c = '*' || c = '\'' || c = '(' || c = ')'

/-- JS `encodeURIComponent`. -/
def encodeURIComponent (s : String) : String :=
  String.mk ((s.data.map (fun c =>
    if uriUnreserved c then [c]
    else (utf8Bytes c).map (fun b => ['%', hexDigit (b / 16), hexDigit (b % 16)])
      |>.flatten)).flatten)

/-! ## The JSON value model -/

mutual
/-- A JSON value as observed from a network response body. -/
inductive JVal where
  | jnull
  | jbool (b : Bool)
  | jnum (n : Int)
  | jstr (s : String)
  | jarr (xs : JList)
  | jobj (fields : JFields)
  deriving DecidableEq

/-- A list of JSON values (spelled out so that all recursion is structural). -/
inductive JList where
  | nil
  | cons (hd : JVal) (tl : JList)
  deriving DecidableEq

/-- The fields of a JSON object, in insertion order. -/
inductive JFields where
  | nil
  | cons (key : String) (val : JVal) (tl : JFields)
  deriving DecidableEq
end

/-- Convert a `JList` to a Lean list. -/
def JList.toList : JList → List JVal
  | .nil => []
  | .cons x xs => x :: xs.toList

/-- Convert `JFields` to a Lean association list. -/
def JFields.toList : JFields → List (String × JVal)
  | .nil => []
  | .cons k v fs => (k, v) :: fs.toList

/-- Build a `JList` from a Lean list (for writing concrete inputs). -/
def JList.ofList : List JVal → JList
  | [] => .nil
  | x :: xs => .cons x (JList.ofList xs)

/-- Build `JFields` from a Lean association list. -/
def JFields.ofList : List (String × JVal) → JFields
  | [] => .nil
  | (k, v) :: fs => .cons k v (JFields.ofList fs)

/-- Convenience constructor for array values. -/
def jarrOf (l : List JVal) : JVal := .jarr (JList.ofList l)

/-- Convenience constructor for object values. -/
def jobjOf (l : List (String × JVal)) : JVal := .jobj (JFields.ofList l)

/-- JS truthiness of a JSON value (`undefined` is handled by `Option` at use
sites; arrays and objects are always truthy). -/
def jsTruthy : JVal → Bool
  | .jnull => false
  | .jbool b => b
  | .jnum n => n != 0
  | .jstr s => s != ""
  | .jarr _ => true
  | .jobj _ => true

/-- JS property access `v.k`: `some` when the property is present (even when
`null`), `none` when it is `undefined`.  Only objects carry named fields. -/
def getField (v : JVal) (k : String) : Option JVal :=
  match v with
  | .jobj fs => (fs.toList.find? (fun p => p.1 == k)).map Prod.snd
  | _ => none

/-- `json && typeof json === "object"` — the object guard used by the
extractor (JS arrays satisfy it, primitives and `null` do not). -/
def jsObjectLike : JVal → Bool
  | .jarr _ => true
  | .jobj _ => true
  | _ => false

mutual
/-- JS `String(v)` coercion. -/
def jsToString : JVal → String
  | .jnull => "null"
  | .jbool b => if b then "true" else "false"
  | .jnum n => toString n
  | .jstr s => s
  | .jarr xs => jsToStringArr xs
  | .jobj _ => "[object Object]"

/-- JS `Array.prototype.toString`: elements joined by commas, `null` elements
becoming the empty string. -/
def jsToStringArr : JList → String
  | .nil => ""
  | .cons x .nil => (match x with | .jnull => "" | v => jsToString v)
  | .cons x xs =>
      (match x with | .jnull => "" | v => jsToString v) ++ "," ++ jsToStringArr xs
end

/-- The `a ?? b ?? …` chain over a prioritized list of keys: the first
*present, non-null* value, if any. -/
def firstNonNullish (r : JVal) : List String → Option JVal
  | [] => none
  | k :: rest =>
    match getField r k with
    | some .jnull => firstNonNullish r rest
    | some v => some v
    | none => firstNonNullish r rest

/-- `firstNonEmptyString` from the source, over already-string candidates:
the first value whose trim is non-empty, trimmed; otherwise `""`. -/
def firstNonEmptyString : List String → String
  | [] => ""
  | s :: rest => if jsTrim s ≠ "" then jsTrim s else firstNonEmptyString rest

/-- `firstNonEmptyString` over raw JSON candidates (the JS version skips
non-string values via its `typeof v === "string"` test). -/
def firstNonEmptyStringJ : List (Option JVal) → String
  | [] => ""
  | some (.jstr s) :: rest =>
      if jsTrim s ≠ "" then jsTrim s else firstNonEmptyStringJ rest
  | _ :: rest => firstNonEmptyStringJ rest

mutual
/-- `flattenText` from the source: strings are trimmed; arrays are flattened
elementwise and joined with newlines; for objects only a fixed allow-list of
text-bearing keys is inspected (no unbounded recursion); everything else
yields `""`. -/
def flattenText (v : JVal) : String :=
  if jsTruthy v = false then ""
  else
    match v with
    | .jstr s => jsTrim s
    | .jarr xs =>
        jsTrim (String.intercalate "\n" ((flattenTextList xs).filter (· ≠ "")))
    | .jobj fs =>
        firstNonEmptyStringJ
          ([fs.toList.find? (fun p => p.1 == "text"),
            fs.toList.find? (fun p => p.1 == "content"),
            fs.toList.find? (fun p => p.1 == "value"),
            fs.toList.find? (fun p => p.1 == "summary"),
            fs.toList.find? (fun p => p.1 == "brief"),
            fs.toList.find? (fun p => p.1 == "transcript"),
            fs.toList.find? (fun p => p.1 == "description"),
            fs.toList.find? (fun p => p.1 == "markdown"),
            fs.toList.find? (fun p => p.1 == "plain")].map (Option.map Prod.snd))
    | _ => ""

/-- `flattenText` mapped over the elements of a JSON array. -/
def flattenTextList : JList → List String
  | .nil => []
  | .cons x xs => flattenText x :: flattenTextList xs
end

/-! ## Draft / resolved records and the field extractor -/

/-- A recording record as produced by `extractRecordingsFromApiJson` and
consumed by the run loop (a *Draft Record* / *Resolved Record* in the spec's
terms).  `clearSummary` models the `_clearSummary` flag set by the noise
suppression; the `_debug` payload (active only under `PLAUD_DEBUG`) carries no
behaviour and is omitted. -/
structure Recording where
  id : String
  title : String
  createdAt : JVal
  summary : String
  transcript : String
  sourceUrl : String
  clearSummary : Bool := false
  deriving DecidableEq

/-- The prioritized id-key allow-list of the extractor. -/
def idKeys : List String := ["id", "recordingId", "recording_id", "uuid", "_id"]

/-- The prioritized title-key list of the extractor. -/
def titleKeys : List String :=
  ["title", "name", "recordingName", "recordingTitle", "record_title",
   "fileName", "filename", "subject"]

/-- The prioritized createdAt-key list of the extractor. -/
def createdAtKeys : List String :=
  ["createdAt", "created_at", "createTime", "createdTime", "time", "date"]

/-- The prioritized summary-key list of the extractor. -/
def summaryKeys : List String :=
  ["summary", "brief", "aiSummary", "ai_summary", "abstract", "notes"]

/-- The prioritized transcript-key list of the extractor. -/
def transcriptKeys : List String :=
  ["transcript", "text", "content", "fullText", "full_text"]

/-- The url-key list of the extractor. -/
def urlKeys : List String := ["url", "webUrl", "shareUrl", "link"]

/-- The values enumerated by `for (const k of Object.keys(json))` (JS arrays
are objects whose keys are their indices). -/
def topLevelValues : JVal → List JVal
  | .jobj fs => fs.toList.map Prod.snd
  | .jarr xs => xs.toList
  | _ => []

/-- `json.k` when it is an array, as a candidate list. -/
def arrayField (json : JVal) (k : String) : List (List JVal) :=
  match getField json k with
  | some (.jarr xs) => [xs.toList]
  | _ => []

/-- `json.k1 && Array.isArray(json.k1.k2)` nesting pattern. -/
def nestedArrayField (json : JVal) (k1 k2 : String) : List (List JVal) :=
  match getField json k1 with
  | some v =>
      if jsTruthy v then
        match getField v k2 with
        | some (.jarr xs) => [xs.toList]
        | _ => []
      else []
  | none => []

/-- The candidate lists assembled by the extractor: every array-valued
top-level key, then the fixed nesting patterns (duplicates are kept, exactly
as the code pushes them). -/
def maybeArrays (json : JVal) : List (List JVal) :=
  ((topLevelValues json).filterMap (fun v =>
      match v with | .jarr xs => some xs.toList | _ => none))
    ++ arrayField json "recordings"
    ++ arrayField json "data"
    ++ nestedArrayField json "data" "recordings"
    ++ nestedArrayField json "result" "recordings"

/-- All candidate elements of all candidate lists, in iteration order. -/
def candidateElems (json : JVal) : List JVal := (maybeArrays json).flatten

/-- Processing of one candidate element `r`: skip non-objects, require a
truthy value from the prioritized id-key chain, then extract the remaining
fields by their prioritized key lists. -/
def extractCandidate (r : JVal) : Option Recording :=
  if jsObjectLike r = false then none
  else
    match firstNonNullish r idKeys with
    | none => none
    | some idv =>
      if jsTruthy idv = false then none
      else
        let title := firstNonEmptyStringJ (titleKeys.map (getField r))
        some
          { id := jsToString idv
            title := if title = "" then "Plaud Recording" else title
            createdAt := (firstNonNullish r createdAtKeys).getD .jnull
            summary :=
              firstNonEmptyString
                (summaryKeys.map (fun k => flattenText ((getField r k).getD .jnull)))
            transcript :=
              firstNonEmptyString
                (transcriptKeys.map (fun k => flattenText ((getField r k).getD .jnull)))
            sourceUrl := firstNonEmptyStringJ (urlKeys.map (getField r)) }

/-- Richness score used for whole-record dedup. -/
def richnessScore (r : Recording) : Nat :=
  r.summary.length + r.transcript.length + r.title.length

/-- One step of the dedup `Map`: insert a new id at the end, or replace the
stored record in place when the new one's score is at least as high. -/
def upsertById (m : List (String × Recording)) (c : Recording) :
    List (String × Recording) :=
  if m.any (fun p => p.1 == c.id) then
    if (m.find? (fun p => p.1 == c.id)).all (fun p => richnessScore p.2 ≤ richnessScore c)
    then m.map (fun p => if p.1 == c.id then (c.id, c) else p)
    else m
  else m ++ [(c.id, c)]

/-- `extractRecordingsFromApiJson`: guard non-objects, enumerate candidate
lists, extract per-element drafts, then deduplicate by id preferring the
richest record. -/
def extractRecordingsFromApiJson (json : JVal) : List Recording :=
  if jsObjectLike json = false then []
  else
    (((candidateElems json).filterMap extractCandidate).foldl upsertById []).map
      Prod.snd

/-! ## Record merger -/

/-- `mergeRecording(baseRec, enrichRec)`: non-empty wins with the enrichment
preferred; `createdAt` by nullish coalescing; all other fields (including
`id`) kept from the base via the object spread. -/
def mergeRecording (baseRec enrichRec : Recording) : Recording :=
  { baseRec with
    title :=
      (let t := firstNonEmptyString [enrichRec.title, baseRec.title]
       if t = "" then "Plaud Recording" else t)
    createdAt :=
      (match enrichRec.createdAt with
       | .jnull => baseRec.createdAt
       | v => v)
    summary := firstNonEmptyString [enrichRec.summary, baseRec.summary]
    transcript := firstNonEmptyString [enrichRec.transcript, baseRec.transcript]
    sourceUrl := firstNonEmptyString [enrichRec.sourceUrl, baseRec.sourceUrl] }

/-! ## Usefulness classifier -/

/-- The fixed noise-marker list of `isTemplateNoise`. -/
def templateMarkers : List String :=
  ["account_circle_rounded", "task_alt_rounded", "detailed summary",
   "full transcript (for external use)",
   "faithful and complete audio transcription",
   "extract meeting tasks and decisions"]

/-- `isTemplateNoise`: case-insensitive substring match against the fixed
marker list. -/
def isTemplateNoise (text : String) : Bool :=
  let t := jsLower text
  if t = "" then false else templateMarkers.any (fun m => strContains t m)

/-- `hasUsefulContent`: a long enough non-noise summary, or a long enough
transcript. -/
def hasUsefulContent (rec : Recording) : Bool :=
  let summary := jsTrim rec.summary
  let goodSummary := (decide (summary.length ≥ 40)) && !(isTemplateNoise summary)
  goodSummary || decide ((jsTrim rec.transcript).length ≥ 120)

/-- `shouldUpsert`: any identity/title/date/link value at all. -/
def shouldUpsert (rec : Recording) : Bool :=
  rec.id != "" || rec.title != "" || jsTruthy rec.createdAt || rec.sourceUrl != ""

/-! ## Notion property construction and the reconciler

The destination schema (`db.properties`) is modelled as an association list
from property name to the property's type string (`"title"`, `"date"`,
`"rich_text"`, `"url"`, ...), exactly the shape the code consults. -/

/-- A Notion property value as built by `buildNotionProperties`. -/
inductive NProp where
  | title (content : String)
  | date (start : String)
  | rich_text (contents : List String)
  | url (u : String)
  deriving DecidableEq

/-- Look up the type string of a schema property. -/
def schemaType (dbProperties : List (String × String)) (name : String) :
    Option String :=
  (dbProperties.find? (fun p => p.1 == name)).map Prod.snd

/-- Look up a built property value by name. -/
def propLookup (props : List (String × NProp)) (name : String) : Option NProp :=
  (props.find? (fun p => p.1 == name)).map Prod.snd

/-- JS object assignment `props[k] = v`: replace in place when the key is
present, append otherwise. -/
def objSet (props : List (String × NProp)) (k : String) (v : NProp) :
    List (String × NProp) :=
  if props.any (fun p => p.1 == k) then
    props.map (fun p => if p.1 == k then (k, v) else p)
  else props ++ [(k, v)]

/-- `toNotionDate`: falsy values yield `null`; otherwise the external
`new Date(value)`/`toISOString` runtime, abstracted as `parse`. -/
def toNotionDate (parse : JVal → Option String) (value : JVal) : Option String :=
  if jsTruthy value then parse value else none

/-- The regex test `/^plaud\s*recording$/i`. -/
def isGenericPlaudTitle (s : String) : Bool :=
  let l := (jsLower s).data
  (l.take 5 == "plaud".data) && ((l.drop 5).dropWhile jsIsWs == "recording".data)

/-- `recordingDisplayName`. -/
def recordingDisplayName (parse : JVal → Option String) (rec : Recording) :
    String :=
  let raw := jsTrim rec.title
  if raw != "" && !(isGenericPlaudTitle raw) then raw
  else
    match toNotionDate parse rec.createdAt with
    | some d => "Plaud recording " ++ strTake d 10
    | none =>
        let shortId := strTake rec.id 8
        if shortId ≠ "" then "Plaud recording " ++ shortId else "Plaud recording"

/-- `buildPlaudRecordingUrl`. -/
def buildPlaudRecordingUrl (baseUrl : String) (rec : Recording) : String :=
  if isHttpUrl rec.sourceUrl then rec.sourceUrl
  else
    let cleanedBase :=
      stripTrailingSlash (if baseUrl = "" then "https://web.plaud.ai" else baseUrl)
    if rec.id = "" then cleanedBase
    else cleanedBase ++ "/recordings/" ++ encodeURIComponent rec.id

/-- A record carrying only an identity, as built by
`findExistingPageByPlaudId` for its url filter (`{ id: plaudId }`). -/
def mkIdRec (plaudId : String) : Recording :=
  { id := plaudId, title := "", createdAt := .jnull, summary := "",
    transcript := "", sourceUrl := "" }

/-- `pickSummaryPropertyName`: the first fixed candidate of rich-text type,
else the first rich-text property other than `Source`. -/
def pickSummaryPropertyName (dbProperties : List (String × String)) :
    Option String :=
  match ["Summary", "Meeting Minutes", "Meeting Notes", "Notes"].find?
      (fun name => schemaType dbProperties name == some "rich_text") with
  | some name => some name
  | none =>
      (dbProperties.find? (fun p => p.1 != "Source" && p.2 == "rich_text")).map
        Prod.fst

/-- The stable dedup marker text stored in a rich-text `Source` property. -/
def sourceMarkerText (baseUrl : String) (rec : Recording) : String :=
  strTake (("Plaud:" ++ rec.id) ++ (" | " ++ buildPlaudRecordingUrl baseUrl rec)) 1900

/-- The opening statements of `buildNotionProperties`: the `Name` title and
the always-set `Date` (falling back to the build-time clock `now`). -/
def notionPropsBase (parse : JVal → Option String) (now : String)
    (rec : Recording) : List (String × NProp) :=
  [("Name", .title (recordingDisplayName parse rec)),
   ("Date", .date ((toNotionDate parse rec.createdAt).getD now))]

/-- The summary-property assignment of `buildNotionProperties`
(`props[summaryPropName] = …`), including the explicit clear for known-bad
template noise. -/
def summaryStage (dbProperties : List (String × String)) (rec : Recording)
    (props : List (String × NProp)) : List (String × NProp) :=
  match pickSummaryPropertyName dbProperties with
  | some summaryPropName =>
      if rec.summary ≠ "" then
        objSet props summaryPropName (.rich_text [strTake rec.summary 1900])
      else if rec.clearSummary = true then
        objSet props summaryPropName (.rich_text [])
      else props
  | none => props

/-- The `Source` marker assignment of `buildNotionProperties`: a url value
for url-typed `Source`, else the rich-text dedup marker. -/
def sourceStage (dbProperties : List (String × String)) (baseUrl : String)
    (rec : Recording) (props : List (String × NProp)) : List (String × NProp) :=
  if rec.id ≠ "" then
    if schemaType dbProperties "Source" = some "url" then
      objSet props "Source" (.url (buildPlaudRecordingUrl baseUrl rec))
    else
      objSet props "Source" (.rich_text [sourceMarkerText baseUrl rec])
  else props

/-- `buildNotionProperties`: the three assignment stages in source order. -/
def buildNotionProperties (parse : JVal → Option String) (now : String)
    (rec : Recording) (baseUrl : String)
    (dbProperties : List (String × String)) : List (String × NProp) :=
  sourceStage dbProperties baseUrl rec
    (summaryStage dbProperties rec (notionPropsBase parse now rec))

/-- `filterPropertiesForDatabase`. -/
def filterPropertiesForDatabase (properties : List (String × NProp))
    (databasePropertyNames : List String) : List (String × NProp) :=
  properties.filter (fun p => databasePropertyNames.contains p.1)

/-! ## Content blocks -/

/-- A Notion content block as built by `buildTranscriptChildren` (rich-text
items are (content, optional link)). -/
inductive Block where
  | paragraph (texts : List (String × Option String))
  | heading2 (text : String)
  deriving DecidableEq

/-- Split a character list into chunks of 1800, with an explicit fuel argument
for structural recursion (fuel = list length always suffices). -/
def chunksAux : Nat → List Char → List (List Char)
  | _, [] => []
  | 0, l => [l]
  | fuel + 1, l => l.take 1800 :: chunksAux fuel (l.drop 1800)

/-- The `for (let i = 0; i < s.length; i += chunkSize)` chunking. -/
def chunkString (s : String) : List String :=
  (chunksAux s.data.length s.data).map String.mk

/-- The chunk-push loop with its `if (children.length > cap) break` guard
(the check runs after each push). -/
def appendChunksCapped (acc : List Block) : List String → Nat → List Block
  | [], _ => acc
  | c :: rest, cap =>
      let acc2 := acc ++ [Block.paragraph [(c, none)]]
      if acc2.length > cap then acc2 else appendChunksCapped acc2 rest cap

/-- `buildTranscriptChildren`. -/
def buildTranscriptChildren (rec : Recording) (baseUrl : String) : List Block :=
  let plaudUrl := buildPlaudRecordingUrl baseUrl rec
  let children : List Block :=
    [.paragraph [("Open in Plaud: ", none), (plaudUrl, some plaudUrl)]]
  let children :=
    if rec.summary ≠ "" then
      appendChunksCapped (children ++ [.heading2 "Summary"]) (chunkString rec.summary) 50
    else children
  if rec.transcript = "" then children
  else
    appendChunksCapped (children ++ [.heading2 "Transcript"]) (chunkString rec.transcript) 90

/-! ## The destination page store (modelled Notion transport) -/

/-- A destination page: its id, its property values, and how many content
blocks its body holds. -/
structure Page where
  pid : Nat
  props : List (String × NProp)
  blocks : Nat
  deriving DecidableEq

/-- The destination database: its pages in creation order and the next page
id. -/
structure Store where
  pages : List Page
  nextId : Nat
  deriving DecidableEq

/-- Plain-text rendering of a page's rich-text property (what Notion's
`rich_text contains` filter inspects). -/
def pageRichTextProp (p : Page) (name : String) : String :=
  match propLookup p.props name with
  | some (.rich_text l) => concatStrings l
  | _ => ""

/-- The url value of a page's property, when it is url-typed. -/
def pageUrlProp (p : Page) (name : String) : Option String :=
  match propLookup p.props name with
  | some (.url u) => some u
  | _ => none

/-- `findExistingPageByPlaudId`: query by url equality when `Source` is
url-typed, else by rich-text containment of the `Plaud:<id>` marker; a query
against a schema without a matching rich-text/url `Source` property raises in
Notion and is caught — the lookup fails open to `none`. -/
def findExistingPageByPlaudId (store : Store)
    (dbProperties : List (String × String)) (plaudId : String)
    (baseUrl : String) : Option Page :=
  if plaudId = "" then none
  else if schemaType dbProperties "Source" = some "url" then
    store.pages.find? (fun p =>
      pageUrlProp p "Source" == some (buildPlaudRecordingUrl baseUrl (mkIdRec plaudId)))
  else if schemaType dbProperties "Source" = some "rich_text" then
    store.pages.find? (fun p =>
      strContains (pageRichTextProp p "Source") ("Plaud:" ++ plaudId))
  else none

/-- `notion.pages.create` with properties and (non-empty) children. -/
def createPage (store : Store) (props : List (String × NProp))
    (blockCount : Nat) : Store :=
  { pages := store.pages ++ [{ pid := store.nextId, props := props, blocks := blockCount }],
    nextId := store.nextId + 1 }

/-- `notion.pages.update`: assign the given properties, keep the rest. -/
def updatePageProps (store : Store) (pid : Nat)
    (props : List (String × NProp)) : Store :=
  { store with
    pages := store.pages.map (fun p =>
      if p.pid = pid then
        { p with props := props.foldl (fun acc kv => objSet acc kv.1 kv.2) p.props }
      else p) }

/-- `notion.blocks.children.append`. -/
def appendPageBlocks (store : Store) (pid : Nat) (n : Nat) : Store :=
  { store with
    pages := store.pages.map (fun p =>
      if p.pid = pid then { p with blocks := p.blocks + n } else p) }

/-- The write mode reported by `writeRecordingToNotion`. -/
inductive Mode where
  | created
  | updated
  deriving DecidableEq

/-- The static context of one run: the Plaud base url, the destination
schema read once per run, the abstracted `Date` runtime `parse`, the
build-time clock `now`, and `writeFails` — the model of the external Notion
transport failing (throwing) on the remote create/update/append call for a
given record's write. -/
structure Cfg where
  baseUrl : String
  dbProperties : List (String × String)
  parse : JVal → Option String
  now : String
  writeFails : Recording → Bool

/-- The error thrown out of a failed remote write, tagged with the record
whose write raised it. -/
structure WriteFailure where
  recId : String
  deriving DecidableEq

/-- `writeRecordingToNotion`, assuming the remote calls succeed (the failing
case is handled at the call site in `stepRec`): build and filter properties,
build content blocks, then update the page found by the dedup lookup (with a
one-time content append while the page body is still nearly empty) or create
a new page. -/
def writeRecordingToNotion (cfg : Cfg) (store : Store) (rec : Recording) :
    Store × Mode :=
  let dbPropertyNames := cfg.dbProperties.map Prod.fst
  let properties :=
    filterPropertiesForDatabase
      (buildNotionProperties cfg.parse cfg.now rec cfg.baseUrl cfg.dbProperties)
      dbPropertyNames
  let children := buildTranscriptChildren rec cfg.baseUrl
  match findExistingPageByPlaudId store cfg.dbProperties rec.id cfg.baseUrl with
  | some existing =>
      let s1 := updatePageProps store existing.pid properties
      let s2 :=
        if children.length ≠ 0 ∧ existing.blocks < 3 then
          appendPageBlocks s1 existing.pid children.length
        else s1
      (s2, .updated)
  | none => (createPage store properties children.length, .created)

/-! ## Sync ledger -/

/-- JSON string escaping as performed by `JSON.stringify` on the id strings. -/
def jsonEscapeChar (c : Char) : String :=
  if c = '"' then "\\\""
  else if c = '\\' then "\\\\"
  else if c = '\n' then "\\n"
  else if c = '\r' then "\\r"
  else if c = '\t' then "\\t"
  else if c.toNat < 0x20 then
    "\\u00" ++ String.mk [hexDigit (c.toNat / 16), hexDigit (c.toNat % 16)]
  else String.singleton c

/-- A JSON string literal. -/
def jsonQuote (s : String) : String :=
  "\"" ++ String.mk ((s.data.map (fun c => (jsonEscapeChar c).data)).flatten) ++ "\""

/-- `saveSyncedIds`: the document written to `synced-recordings.json`, i.e.
`JSON.stringify(Array.from(setOfIds), null, 2) + "\n"` applied to the set's
insertion-ordered id list. -/
def saveSyncedIds (ids : List String) : String :=
  (if ids.isEmpty then "[]"
   else
     "[\n" ++ String.intercalate ",\n" (ids.map (fun s => "  " ++ jsonQuote s)) ++ "\n]")
    ++ "\n"

/-- JS `Set.prototype.add` on an insertion-ordered set list. -/
def jsSetAdd (l : List String) (x : String) : List String :=
  if x ∈ l then l else l ++ [x]

/-- Deduplication keeping first occurrences (the iteration order of a JS
`Set` built by repeated `add`), with the already-seen prefix explicit. -/
def firstDedupAux (seen : List String) : List String → List String
  | [] => []
  | x :: xs =>
      if x ∈ seen then firstDedupAux seen xs
      else x :: firstDedupAux (seen ++ [x]) xs

/-- Deduplication keeping first occurrences. -/
def firstDedup (l : List String) : List String := firstDedupAux [] l

/-! ## The run loop (`main`) -/

/-- The mutable state threaded through the batch loop of `main`. -/
structure RunState where
  store : Store
  synced : List String
  seenSummaries : List (String × Nat)
  created : Nat
  updated : Nat
  skipped : Nat
  lowSignal : Nat
  deriving DecidableEq

/-- Occurrence count recorded so far for a normalized summary. -/
def seenCount (seen : List (String × Nat)) (s : String) : Nat :=
  ((seen.find? (fun p => p.1 == s)).map Prod.snd).getD 0

/-- `seenSummaries.set`. -/
def setSeenCount (seen : List (String × Nat)) (s : String) (n : Nat) :
    List (String × Nat) :=
  if seen.any (fun p => p.1 == s) then
    seen.map (fun p => if p.1 == s then (s, n) else p)
  else seen ++ [(s, n)]

/-- The in-loop noise suppression: clear template noise outright; otherwise
count the normalized summary and clear it from the third occurrence on.
Returns the (possibly mutated) record and the updated counter map. -/
def noiseAdjust (seen : List (String × Nat)) (rec : Recording) :
    Recording × List (String × Nat) :=
  let normalizedSummary := jsTrim rec.summary
  if normalizedSummary = "" then (rec, seen)
  else if isTemplateNoise normalizedSummary then
    ({ rec with summary := "", clearSummary := true }, seen)
  else
    let count := seenCount seen normalizedSummary + 1
    let seen2 := setSeenCount seen normalizedSummary count
    if count ≥ 3 then ({ rec with summary := "", clearSummary := true }, seen2)
    else (rec, seen2)

/-- One iteration of the `for (const rec of recordings)` loop in `main`: the
upsert gate, the noise suppression, the low-signal counter, then the write —
whose failure (modelled by `cfg.writeFails`) propagates as an uncaught
exception — and finally the ledger update. -/
def stepRec (cfg : Cfg) (st : RunState) (rec : Recording) :
    Except WriteFailure RunState :=
  if shouldUpsert rec = false then .ok { st with skipped := st.skipped + 1 }
  else
    let adj := noiseAdjust st.seenSummaries rec
    let rec2 := adj.1
    let lowSignal2 :=
      if hasUsefulContent rec2 then st.lowSignal else st.lowSignal + 1
    if cfg.writeFails rec2 then .error ⟨rec2.id⟩
    else
      let write := writeRecordingToNotion cfg st.store rec2
      let synced2 := if rec2.id ≠ "" then jsSetAdd st.synced rec2.id else st.synced
      .ok
        { store := write.1
          synced := synced2
          seenSummaries := adj.2
          created := if write.2 = Mode.created then st.created + 1 else st.created
          updated := if write.2 = Mode.updated then st.updated + 1 else st.updated
          skipped := st.skipped
          lowSignal := lowSignal2 }

/-- The batch loop: strictly sequential; an uncaught write failure aborts the
remaining iterations. -/
def runLoop (cfg : Cfg) (st : RunState) : List Recording → Except WriteFailure RunState
  | [] => .ok st
  | r :: rs =>
      match stepRec cfg st r with
      | .error e => .error e
      | .ok st2 => runLoop cfg st2 rs

/-- The state `main` enters its loop with: the destination store as found,
the loaded ledger (a JS `Set` built from the persisted array), fresh
counters, and an empty in-run summary counter map. -/
def initRunState (store0 : Store) (ledger0 : List String) : RunState :=
  { store := store0, synced := firstDedup ledger0, seenSummaries := [],
    created := 0, updated := 0, skipped := 0, lowSignal := 0 }

/-- The observable outcome of a completed run: the final loop state and the
ledger document written by `saveSyncedIds`. -/
structure RunOutcome where
  state : RunState
  ledgerDoc : String
  deriving DecidableEq

/-- The record-processing part of `main`: run the batch loop, then persist
the ledger; when the loop throws, `main`'s `catch` exits the process and the
ledger is never saved. -/
def runMain (cfg : Cfg) (store0 : Store) (ledger0 : List String)
    (recordings : List Recording) : Except WriteFailure RunOutcome :=
  match runLoop cfg (initRunState store0 ledger0) recordings with
  | .error e => .error e
  | .ok st => .ok { state := st, ledgerDoc := saveSyncedIds st.synced }

/-! ## Concrete fixtures used by witnesses and counterexamples -/

/-- A date runtime that parses nothing (all timestamps invalid/absent). -/
def parse0 : JVal → Option String := fun _ => none

/-- A representative destination schema with the default property layout. -/
def schema0 : List (String × String) :=
  [("Name", "title"), ("Date", "date"), ("Summary", "rich_text"),
   ("Source", "rich_text")]

/-- A run context over `schema0` whose remote writes all succeed. -/
def cfg0 : Cfg :=
  { baseUrl := "https://web.plaud.ai", dbProperties := schema0,
    parse := parse0, now := "2024-01-01T00:00:00.000Z",
    writeFails := fun _ => false }

/-- An empty destination database. -/
def emptyStore : Store := { pages := [], nextId := 0 }

/-- The spec's gating example: summary of length 10, transcript of length 0. -/
def rec10 : Recording :=
  { id := "r1", title := "Meeting", createdAt := .jnull,
    summary := "hello12345", transcript := "", sourceUrl := "" }

/-- An identified record with no content at all (not useful). -/
def recNoContent : Recording :=
  { id := "u1", title := "T", createdAt := .jnull, summary := "",
    transcript := "", sourceUrl := "" }

/-- A non-template summary long enough to pass the 40-character gate. -/
def dupSummary : String := "This is a sufficiently long duplicated summary."

/-- Three distinct records sharing `dupSummary`. -/
def recDupA : Recording :=
  { id := "a1", title := "A", createdAt := .jnull, summary := dupSummary,
    transcript := "", sourceUrl := "" }

/-- Second record sharing `dupSummary`. -/
def recDupB : Recording := { recDupA with id := "a2" }

/-- Third record sharing `dupSummary`. -/
def recDupC : Recording := { recDupA with id := "a3" }

/-- A run context in which the remote write for `rec10` fails. -/
def cfgFail : Cfg := { cfg0 with writeFails := fun r => r.id == "r1" }

/-- A candidate element whose highest-priority id key is present but empty
while a lower-priority key holds a usable value. -/
def elemEmptyId : JVal := jobjOf [("id", .jstr ""), ("uuid", .jstr "abc")]

/-- A payload containing `elemEmptyId`. -/
def payloadEmptyId : JVal := jobjOf [("items", jarrOf [elemEmptyId])]

/-- A payload whose element has a truthy array id that coerces to `""`. -/
def payloadArrayId : JVal := jobjOf [("items", jarrOf [jobjOf [("id", jarrOf [])]])]

/-- A sparse list-view observation of recording `"abc123"`. -/
def mergeObsA : Recording :=
  { id := "abc123", title := "Plaud Recording", createdAt := .jnull,
    summary := "", transcript := "", sourceUrl := "" }

/-- A richer detail-view observation of the same recording. -/
def mergeObsB : Recording :=
  { mergeObsA with
    title := "Weekly Sync"
    summary := "Discussed Q3 roadmap and assigned owners for each workstream." }

/-- A later observation of the same recording adding a transcript. -/
def mergeObsC : Recording :=
  { mergeObsA with transcript := "Full transcript text." }

/-! ## Small shared lemmas -/

theorem jsSetAdd_mem_self (l : List String) (x : String) : x ∈ jsSetAdd l x := by
  by_cases h : x ∈ l <;> simp [jsSetAdd, h]

theorem noiseAdjust_id (seen : List (String × Nat)) (rec : Recording) :
    (noiseAdjust seen rec).1.id = rec.id := by
  unfold noiseAdjust
  dsimp only
  split
  · rfl
  · split
    · rfl
    · split <;> rfl

theorem noiseAdjust_sourceUrl (seen : List (String × Nat)) (rec : Recording) :
    (noiseAdjust seen rec).1.sourceUrl = rec.sourceUrl := by
  unfold noiseAdjust
  dsimp only
  split
  · rfl
  · split
    · rfl
    · split <;> rfl

theorem jsTrim_empty : jsTrim "" = "" := rfl

/-! ## Claim C5 — merge fold associativity as stated -/

/-- Claim C5: folding the ordered list `[A, B, C]` of draft records sharing
one identity with `mergeRecording` (the code's left-to-right fold, seeded
with the first observation) yields the same resolved record as merging
`[merge(A,B), C]`. -/
theorem mergeRecording_fold_assoc (A B C : Recording)
    (_hAB : A.id = B.id) (_hBC : B.id = C.id) :
    List.foldl mergeRecording A [B, C] =
      List.foldl mergeRecording (mergeRecording A B) [C] := rfl

/-- Witness for C5 at the spec's concrete scenario: a sparse list-view draft
and a richer detail-view draft sharing the identity `"abc123"`. -/
theorem mergeRecording_fold_assoc_witness :
    mergeObsA.id = mergeObsB.id ∧ mergeObsB.id = mergeObsC.id ∧
      List.foldl mergeRecording mergeObsA [mergeObsB, mergeObsC] =
        List.foldl mergeRecording (mergeRecording mergeObsA mergeObsB) [mergeObsC] := by
  refine ⟨by decide, by decide, ?_⟩
  exact mergeRecording_fold_assoc mergeObsA mergeObsB mergeObsC (by decide) (by decide)

/-! ## Claim C7 — write payload filtered to the destination schema -/

/-- Claim C7: the write payload built for a record (property construction
followed by the schema filter, exactly as composed in
`writeRecordingToNotion`) contains only property names present in the
destination schema; in particular a schema lacking `"Summary"` never
receives a `"Summary"` key, whatever the record's summary. -/
theorem filterProperties_subset_schema (parse : JVal → Option String)
    (now : String) (rec : Recording) (baseUrl : String)
    (dbProperties : List (String × String)) :
    (∀ k, k ∈ (filterPropertiesForDatabase
        (buildNotionProperties parse now rec baseUrl dbProperties)
        (dbProperties.map Prod.fst)).map Prod.fst →
          k ∈ dbProperties.map Prod.fst) ∧
    ("Summary" ∉ dbProperties.map Prod.fst →
      "Summary" ∉ (filterPropertiesForDatabase
        (buildNotionProperties parse now rec baseUrl dbProperties)
        (dbProperties.map Prod.fst)).map Prod.fst) := by
  constructor
  · intro k hk
    obtain ⟨p, hp, hpk⟩ := List.mem_map.mp hk
    have h2 := (List.mem_filter.mp hp).2
    rw [hpk] at h2
    simpa using h2
  · intro hs hmem
    obtain ⟨p, hp, hpk⟩ := List.mem_map.mp hmem
    have h2 := (List.mem_filter.mp hp).2
    rw [hpk] at h2
    exact hs (by simpa using h2)

/-- Witness for C7: with a schema having only `Name` and `Date`, the payload
for a record with a non-empty summary has no `"Summary"` key. -/
theorem filterProperties_subset_schema_witness :
    "Summary" ∉ ([("Name", "title"), ("Date", "date")].map Prod.fst) ∧
      "Summary" ∉ (filterPropertiesForDatabase
        (buildNotionProperties parse0 "2024-01-01T00:00:00.000Z" rec10
          "https://web.plaud.ai" [("Name", "title"), ("Date", "date")])
        ([("Name", "title"), ("Date", "date")].map Prod.fst)).map Prod.fst := by
  refine ⟨by decide, ?_⟩
  exact (filterProperties_subset_schema parse0 "2024-01-01T00:00:00.000Z" rec10
    "https://web.plaud.ai" [("Name", "title"), ("Date", "date")]).2 (by decide)

/-! ## Claim C8 — the extractor is total and rejects non-objects -/

/-- Claim C8: `extractRecordingsFromApiJson` is a total function of its input
(it is a Lean `def`, so it never throws), and every input failing the JS
object guard (`null`, booleans, numbers, strings — JS arrays count as
objects) yields the empty list. -/
theorem extract_nonobject_empty (j : JVal) (h : jsObjectLike j = false) :
    extractRecordingsFromApiJson j = [] := by
  simp [extractRecordingsFromApiJson, h]

/-- Witness for C8 at a malformed (non-JSON-object) input. -/
theorem extract_nonobject_empty_witness :
    jsObjectLike (.jstr "not a json object") = false ∧
      extractRecordingsFromApiJson (.jstr "not a json object") = [] :=
  ⟨rfl, extract_nonobject_empty _ rfl⟩

/-! ## Claim C9 — ledger persistence is insertion-ordered, not sorted -/

/-- Counterexample for C9: two runs ending with the same *set* of identities
(`{"a","b"}`, inserted in different orders) write different ledger
documents, so the persisted array is not a sorted canonical form. -/
theorem saveSyncedIds_unsorted_counterexample :
    (["b", "a"] : List String).Perm ["a", "b"] ∧
      saveSyncedIds ["b", "a"] ≠ saveSyncedIds ["a", "b"] := by
  constructor
  · decide
  · decide

theorem foldl_jsSetAdd_eq_dedup (l : List String) :
    ∀ acc, List.foldl jsSetAdd acc l = acc ++ firstDedupAux acc l := by
  induction l with
  | nil => intro acc; simp [firstDedupAux]
  | cons x xs ih =>
      intro acc
      by_cases h : x ∈ acc
      · simp [jsSetAdd, firstDedupAux, h, ih]
      · simp only [List.foldl_cons, jsSetAdd, firstDedupAux, if_neg h, ih]
        simp

/-- Claim C9 (amended): the ledger save operation persists the identity
strings in the set's insertion order — the first-occurrence order of the ids
added during and before the run — not sorted; the document is a deterministic
function of that order (runs inserting ids in the same first-occurrence order
produce byte-identical files), but equal sets reached through different
insertion orders may produce different files. -/
theorem saveSyncedIds_insertion_order (inserts : List String) :
    saveSyncedIds (List.foldl jsSetAdd [] inserts) =
      saveSyncedIds (firstDedup inserts) := by
  rw [foldl_jsSetAdd_eq_dedup, firstDedup]
  rfl

/-! ## Claim C1 — low-signal records are written and ledgered, not skipped -/

/-- Counterexample for C1: the spec's own gating example — a record with
summary length 10 and transcript length 0, not useful, never seen before —
is written on its first sighting (one page is created) and its identity is
in the ledger at the end of the run. -/
theorem notUseful_record_written_counterexample :
    rec10.summary.length = 10 ∧ rec10.transcript.length = 0 ∧
      hasUsefulContent rec10 = false ∧
      (runMain cfg0 emptyStore [] [rec10]).toOption.map
          (fun r => (r.state.store.pages.length, r.state.synced)) =
        some (1, ["r1"]) := by
  refine ⟨rfl, rfl, by decide, by decide⟩

/-- Claim C1 (amended): a record that is not useful is *not* skipped by the
run loop: as long as it passes the upsert gate (`shouldUpsert`, i.e. it has
any of id/title/createdAt/sourceUrl), it is still written to the destination
and — whenever its identity is non-empty — its identity *is* added to the
ledger; being low-signal only increments the `lowSignal` counter.  (The
ledger is never consulted to gate the write at all.) -/
theorem notUseful_record_still_written (cfg : Cfg) (st : RunState)
    (rec : Recording) (hup : shouldUpsert rec = true)
    (hok : cfg.writeFails (noiseAdjust st.seenSummaries rec).1 = false) :
    ∃ st', stepRec cfg st rec = .ok st' ∧
      st'.store = (writeRecordingToNotion cfg st.store
        (noiseAdjust st.seenSummaries rec).1).1 ∧
      (rec.id ≠ "" → rec.id ∈ st'.synced) ∧
      (hasUsefulContent (noiseAdjust st.seenSummaries rec).1 = false →
        st'.lowSignal = st.lowSignal + 1) := by
  unfold stepRec
  rw [hup]
  simp only [Bool.true_eq_false, if_false, hok]
  refine ⟨_, rfl, rfl, ?_, ?_⟩
  · intro hid
    simp only [noiseAdjust_id, hid, ne_eq, not_false_eq_true, if_pos]
    exact jsSetAdd_mem_self _ _
  · intro hnu
    simp only [hnu, Bool.false_eq_true, if_false]

/-- Witness for C1 (amended) at the gating example record on a fresh run
state. -/
theorem notUseful_record_still_written_witness :
    shouldUpsert rec10 = true ∧
      cfg0.writeFails (noiseAdjust (initRunState emptyStore []).seenSummaries rec10).1 = false ∧
      ∃ st', stepRec cfg0 (initRunState emptyStore []) rec10 = .ok st' ∧
        st'.store = (writeRecordingToNotion cfg0 (initRunState emptyStore []).store
          (noiseAdjust (initRunState emptyStore []).seenSummaries rec10).1).1 ∧
        (rec10.id ≠ "" → rec10.id ∈ st'.synced) ∧
        (hasUsefulContent (noiseAdjust (initRunState emptyStore []).seenSummaries rec10).1 = false →
          st'.lowSignal = (initRunState emptyStore []).lowSignal + 1) :=
  ⟨by decide, by decide,
    notUseful_record_still_written cfg0 (initRunState emptyStore []) rec10
      (by decide) (by decide)⟩

/-! ## Claim C2 — a write failure aborts the whole run -/

/-- Counterexample for C2: with a transport whose write for `rec10` fails,
the run over the batch `[rec10, recNoContent]` ends in the uncaught failure —
the loop does not proceed to `recNoContent` (which, alone, would have been
written successfully) and the ledger is never saved. -/
theorem writeFailure_aborts_counterexample :
    runMain cfgFail emptyStore [] [rec10, recNoContent] = .error ⟨"r1"⟩ ∧
      (runMain cfgFail emptyStore [] [recNoContent]).toOption.map
          (fun r => r.state.created) = some 1 := by
  exact ⟨rfl, by decide⟩

/-- Claim C2 (amended): the run loop has no per-record error handling: when
the remote write for a record fails, the exception propagates uncaught out of
the loop, so the run aborts at that record — the remaining records of the
batch are never attempted (the outcome does not depend on them) and
`saveSyncedIds` is never reached, so no identity from the run (neither the
failed record's nor those of earlier successful writes) is persisted.  Only
the failed record's absence from the ledger matches the original claim. -/
theorem writeFailure_aborts_run (cfg : Cfg) (st : RunState) (rec : Recording)
    (rs : List Recording) (hup : shouldUpsert rec = true)
    (hfail : cfg.writeFails (noiseAdjust st.seenSummaries rec).1 = true) :
    runLoop cfg st (rec :: rs) =
      .error ⟨(noiseAdjust st.seenSummaries rec).1.id⟩ := by
  unfold runLoop stepRec
  rw [hup]
  simp only [Bool.true_eq_false, if_false, hfail, if_true]

/-- Witness for C2 (amended) at the failing transport and record. -/
theorem writeFailure_aborts_run_witness :
    shouldUpsert rec10 = true ∧
      cfgFail.writeFails (noiseAdjust (initRunState emptyStore []).seenSummaries rec10).1 = true ∧
      runLoop cfgFail (initRunState emptyStore []) [rec10, recNoContent] =
        .error ⟨(noiseAdjust (initRunState emptyStore []).seenSummaries rec10).1.id⟩ :=
  ⟨by decide, by decide,
    writeFailure_aborts_run cfgFail (initRunState emptyStore []) rec10
      [recNoContent] (by decide) (by decide)⟩

/-! ## Claim C3 — only the third and later duplicate summaries are cleared -/

/-- Counterexample for C3: three distinct records share the same non-empty
(non-template) summary in one batch, yet after the run the pages created for
the first two still carry that summary as real rich-text content; only the
third record's summary was cleared.  The claim that *all* of them (including
the first two encountered) are cleared before reconciliation is false. -/
theorem repeatedSummary_first_two_kept_counterexample :
    dupSummary ≠ "" ∧
      (runMain cfg0 emptyStore [] [recDupA, recDupB, recDupC]).toOption.map
          (fun r => r.state.store.pages.map (fun p => propLookup p.props "Summary")) =
        some [some (.rich_text [dupSummary]), some (.rich_text [dupSummary]),
              some (.rich_text [])] := by
  exact ⟨by decide, by decide⟩

/-- Claim C3 (amended): within one run, a recurring identical non-empty,
non-template summary is cleared only from its third occurrence onwards: the
record processed in the loop carries an emptied summary exactly when the
occurrence counter (including the current record) has reached 3; the first
two records bearing it keep their summaries and are reconciled with them as
real content. -/
theorem repeatedSummary_cleared_from_third (seen : List (String × Nat))
    (rec : Recording) (h1 : jsTrim rec.summary ≠ "")
    (h2 : isTemplateNoise (jsTrim rec.summary) = false) :
    ((noiseAdjust seen rec).1.summary = "" ↔
        seenCount seen (jsTrim rec.summary) + 1 ≥ 3) ∧
      (noiseAdjust seen rec).2 =
        setSeenCount seen (jsTrim rec.summary) (seenCount seen (jsTrim rec.summary) + 1) := by
  have hrec : rec.summary ≠ "" := by
    intro h; rw [h] at h1; exact h1 jsTrim_empty
  unfold noiseAdjust
  simp only [h1, if_neg, h2, Bool.false_eq_true, if_false]
  by_cases h3 : seenCount seen (jsTrim rec.summary) + 1 ≥ 3
  · simp [h3]
  · simp [h3, hrec]

/-- Witness for C3 (amended): with the summary already seen twice, the third
occurrence is cleared. -/
theorem repeatedSummary_cleared_from_third_witness :
    jsTrim recDupC.summary ≠ "" ∧
      isTemplateNoise (jsTrim recDupC.summary) = false ∧
      (((noiseAdjust [(dupSummary, 2)] recDupC).1.summary = "" ↔
          seenCount [(dupSummary, 2)] (jsTrim recDupC.summary) + 1 ≥ 3) ∧
        (noiseAdjust [(dupSummary, 2)] recDupC).2 =
          setSeenCount [(dupSummary, 2)] (jsTrim recDupC.summary)
            (seenCount [(dupSummary, 2)] (jsTrim recDupC.summary) + 1)) :=
  ⟨by decide, by decide,
    repeatedSummary_cleared_from_third [(dupSummary, 2)] recDupC
      (by decide) (by decide)⟩

/-! ## Claim C6 — identity provenance of extracted drafts -/

theorem mem_upsertById (m : List (String × Recording)) (c : Recording)
    (p : String × Recording) (h : p ∈ upsertById m c) :
    p ∈ m ∨ p = (c.id, c) := by
  unfold upsertById at h
  split at h
  · split at h
    · obtain ⟨q, hq, hqe⟩ := List.mem_map.mp h
      by_cases hqc : (q.1 == c.id) = true
      · right; rw [← hqe]; simp [hqc]
      · left; rw [← hqe]; simp [hqc]; exact hq
    · exact Or.inl h
  · rcases List.mem_append.mp h with h1 | h2
    · exact Or.inl h1
    · right; simpa using h2

theorem mem_foldl_upsertById (cs : List Recording) :
    ∀ (init : List (String × Recording)) (p : String × Recording),
      p ∈ List.foldl upsertById init cs → p ∈ init ∨ p.2 ∈ cs := by
  induction cs with
  | nil => intro init p h; exact Or.inl h
  | cons c cs ih =>
      intro init p h
      rcases ih (upsertById init c) p h with h1 | h2
      · rcases mem_upsertById _ _ _ h1 with h3 | h4
        · exact Or.inl h3
        · right; rw [h4]; exact List.mem_cons_self _ _
      · exact Or.inr (List.mem_cons_of_mem _ h2)

theorem extractCandidate_some (r : JVal) (rec : Recording)
    (h : extractCandidate r = some rec) :
    ∃ v, firstNonNullish r idKeys = some v ∧ jsTruthy v = true ∧
      rec.id = jsToString v := by
  unfold extractCandidate at h
  split at h
  · exact absurd h (by simp)
  · split at h
    · exact absurd h (by simp)
    · next idv heq =>
      split at h
      · exact absurd h (by simp)
      · next htr =>
        refine ⟨idv, heq, by simpa using htr, ?_⟩
        simp only [Option.some.injEq] at h
        rw [← h]

/-- Counterexample for C6: the element `{id: "", uuid: "abc"}` contains a
present value under the id-key allow-list (indeed a non-empty one under
`uuid`), yet no draft record is produced — the `??` chain stops at the
present-but-empty `id` and the element is dropped; and the element
`{id: []}` (a truthy array id) produces a draft record whose identity is the
*empty* string, because JS `String([])` is `""`.  Both directions of the
claimed equivalence, and the claimed non-emptiness, fail. -/
theorem extraction_identity_counterexample :
    getField elemEmptyId "uuid" = some (.jstr "abc") ∧
      extractRecordingsFromApiJson payloadEmptyId = [] ∧
      (extractRecordingsFromApiJson payloadArrayId).map (·.id) = [""] := by
  exact ⟨by decide, by decide, by decide⟩

/-- Claim C6 (amended): every draft record produced by the extractor owes its
identity to some candidate element whose prioritized id-key chain
(`id`, `recordingId`, `recording_id`, `uuid`, `_id`) yielded a present,
truthy value; the identity is the JS string coercion of that value — hence
non-empty whenever the value is a string (and then equal to it) — though a
truthy non-primitive id may coerce to an empty identity.  Conversely, an
element whose chain yields no present truthy value produces no draft: such
elements are dropped, never defaulted.  (The chain stops at the first
*present* key, so a present-but-falsy high-priority id drops the element even
when a lower-priority key is usable.) -/
theorem extraction_identity_provenance :
    (∀ json rec, rec ∈ extractRecordingsFromApiJson json →
      ∃ r v, r ∈ candidateElems json ∧ firstNonNullish r idKeys = some v ∧
        jsTruthy v = true ∧ rec.id = jsToString v ∧
        (∀ s, v = .jstr s → rec.id = s ∧ s ≠ "")) ∧
    (∀ r, (match firstNonNullish r idKeys with
            | some v => jsTruthy v
            | none => false) = false →
      extractCandidate r = none) := by
  constructor
  · intro json rec h
    unfold extractRecordingsFromApiJson at h
    split at h
    · exact absurd h (by simp)
    · obtain ⟨p, hp, hpe⟩ := List.mem_map.mp h
      rcases mem_foldl_upsertById _ _ _ hp with h1 | h2
      · exact absurd h1 (by simp)
      · obtain ⟨r, hr, hre⟩ := List.mem_filterMap.mp h2
        obtain ⟨v, hv1, hv2, hv3⟩ := extractCandidate_some r p.2 hre
        refine ⟨r, v, hr, hv1, hv2, ?_, ?_⟩
        · rw [hpe] at hv3; exact hv3
        · intro s hs
          subst hs
          rw [hpe] at hv3
          refine ⟨hv3, ?_⟩
          simpa [jsTruthy] using hv2
  · intro r h
    unfold extractCandidate
    split
    · rfl
    · split
      · rfl
      · next idv heq =>
        rw [heq] at h
        have h' : jsTruthy idv = false := h
        simp [h']

/-- A well-formed payload for the C6 witness. -/
def payloadGood : JVal :=
  jobjOf [("recordings", jarrOf [jobjOf [("id", .jstr "x1"), ("title", .jstr "T")]])]

/-- The draft extracted from `payloadGood`. -/
def recGood : Recording :=
  { id := "x1", title := "T", createdAt := .jnull, summary := "",
    transcript := "", sourceUrl := "" }

/-- Witness for C6 (amended) at a concrete payload and draft. -/
theorem extraction_identity_provenance_witness :
    recGood ∈ extractRecordingsFromApiJson payloadGood ∧
      ∃ r v, r ∈ candidateElems payloadGood ∧
        firstNonNullish r idKeys = some v ∧ jsTruthy v = true ∧
        recGood.id = jsToString v ∧
        (∀ s, v = .jstr s → recGood.id = s ∧ s ≠ "") :=
  ⟨by decide, extraction_identity_provenance.1 payloadGood recGood (by decide)⟩

/-! ## Association-list lookup lemmas for `objSet` -/

theorem propLookup_cons (a : String) (b : NProp) (l : List (String × NProp))
    (k : String) :
    propLookup ((a, b) :: l) k = if a = k then some b else propLookup l k := by
  unfold propLookup
  by_cases hak : a = k
  · rw [List.find?_cons_of_pos _ (by simp [hak])]
    simp [hak]
  · rw [List.find?_cons_of_neg _ (by simp [hak])]
    simp [hak]

theorem propLookup_map_replace (l : List (String × NProp)) (k k' : String)
    (v : NProp) (h : k ≠ k') :
    propLookup (l.map (fun p => if p.1 == k' then (k', v) else p)) k =
      propLookup l k := by
  induction l with
  | nil => rfl
  | cons p l ih =>
      obtain ⟨a, b⟩ := p
      simp only [List.map_cons]
      by_cases hak' : a = k'
      · have hcond : ((a : String) == k') = true := by simp [hak']
        rw [if_pos hcond, propLookup_cons, propLookup_cons,
          if_neg (fun he => h he.symm), if_neg (fun he => h (he.symm.trans hak'))]
        exact ih
      · have hcond : ¬(((a : String) == k') = true) := by simp [hak']
        rw [if_neg hcond, propLookup_cons, propLookup_cons]
        by_cases hak : a = k
        · rw [if_pos hak, if_pos hak]
        · rw [if_neg hak, if_neg hak]
          exact ih

theorem propLookup_map_set_self (l : List (String × NProp)) (k : String)
    (v : NProp) (hany : (l.any (fun p => p.1 == k)) = true) :
    propLookup (l.map (fun p => if p.1 == k then (k, v) else p)) k = some v := by
  induction l with
  | nil => simp at hany
  | cons p l ih =>
      obtain ⟨a, b⟩ := p
      simp only [List.map_cons]
      by_cases hak : a = k
      · have hcond : ((a : String) == k) = true := by simp [hak]
        rw [if_pos hcond, propLookup_cons, if_pos rfl]
      · have hcond : ¬(((a : String) == k) = true) := by simp [hak]
        rw [if_neg hcond, propLookup_cons, if_neg hak]
        apply ih
        simpa [hak] using hany

theorem propLookup_append_ne (l : List (String × NProp)) (k k' : String)
    (v : NProp) (h : k ≠ k') :
    propLookup (l ++ [(k', v)]) k = propLookup l k := by
  induction l with
  | nil =>
      show propLookup ((k', v) :: []) k = propLookup [] k
      rw [propLookup_cons, if_neg (fun he => h he.symm)]
  | cons p l ih =>
      obtain ⟨a, b⟩ := p
      rw [List.cons_append, propLookup_cons, propLookup_cons]
      by_cases hak : a = k
      · simp [hak]
      · simp [hak, ih]

theorem propLookup_append_self (l : List (String × NProp)) (k : String)
    (v : NProp) (hnone : (l.any (fun p => p.1 == k)) = false) :
    propLookup (l ++ [(k, v)]) k = some v := by
  induction l with
  | nil =>
      show propLookup ((k, v) :: []) k = some v
      rw [propLookup_cons, if_pos rfl]
  | cons p l ih =>
      obtain ⟨a, b⟩ := p
      simp only [List.any_cons, Bool.or_eq_false_iff] at hnone
      rw [List.cons_append, propLookup_cons]
      have hak : a ≠ k := by simpa using hnone.1
      rw [if_neg hak]
      exact ih hnone.2

theorem propLookup_objSet_ne (l : List (String × NProp)) (k k' : String)
    (v : NProp) (h : k ≠ k') :
    propLookup (objSet l k' v) k = propLookup l k := by
  unfold objSet
  split
  · exact propLookup_map_replace l k k' v h
  · exact propLookup_append_ne l k k' v h

theorem propLookup_objSet_self (l : List (String × NProp)) (k : String)
    (v : NProp) : propLookup (objSet l k v) k = some v := by
  unfold objSet
  split
  · next hany => exact propLookup_map_set_self l k v hany
  · next hany =>
      exact propLookup_append_self l k v (by simpa only [Bool.not_eq_true] using hany)

theorem objSet_keys_ne (l : List (String × NProp)) (k : String) (v : NProp)
    (s : String) (hl : ∀ p ∈ l, p.1 ≠ s) (hk : k ≠ s) :
    ∀ p ∈ objSet l k v, p.1 ≠ s := by
  unfold objSet
  split
  · intro p hp
    obtain ⟨q, hq, hqe⟩ := List.mem_map.mp hp
    by_cases hqk : (q.1 == k) = true
    · rw [← hqe, if_pos hqk]
      exact hk
    · rw [← hqe, if_neg hqk]
      exact hl q hq
  · intro p hp
    rcases List.mem_append.mp hp with h1 | h2
    · exact hl p h1
    · simp only [List.mem_singleton] at h2
      rw [h2]; exact hk

theorem objSet_eq_append (l : List (String × NProp)) (k : String) (v : NProp)
    (hl : ∀ p ∈ l, p.1 ≠ k) : objSet l k v = l ++ [(k, v)] := by
  unfold objSet
  rw [if_neg]
  intro hany
  rw [List.any_eq_true] at hany
  obtain ⟨p, hp, hpe⟩ := hany
  exact hl p hp (by simpa using hpe)

/-! ## Stage-preservation lemmas -/

theorem summaryStage_lookup_ne (dbProperties : List (String × String))
    (rec : Recording) (props : List (String × NProp)) (k : String)
    (h : (pickSummaryPropertyName dbProperties).all (fun n => n != k) = true) :
    propLookup (summaryStage dbProperties rec props) k = propLookup props k := by
  unfold summaryStage
  rcases hpick : pickSummaryPropertyName dbProperties with _ | n
  · rfl
  · rw [hpick] at h
    have hk : k ≠ n := by
      intro he; subst he
      simp [Option.all] at h
    dsimp only
    split
    · exact propLookup_objSet_ne _ _ _ _ hk
    · split
      · exact propLookup_objSet_ne _ _ _ _ hk
      · rfl

theorem sourceStage_lookup_ne (dbProperties : List (String × String))
    (baseUrl : String) (rec : Recording) (props : List (String × NProp))
    (k : String) (hk : k ≠ "Source") :
    propLookup (sourceStage dbProperties baseUrl rec props) k =
      propLookup props k := by
  unfold sourceStage
  split
  · split
    · exact propLookup_objSet_ne _ _ _ _ hk
    · exact propLookup_objSet_ne _ _ _ _ hk
  · rfl

/-! ## Claim C10 — Name/Date construction and the clock fallback -/

/-- A record with a non-empty summary and no identity, used to exhibit the
summary-property overwrite. -/
def recSummaryOnly : Recording :=
  { id := "", title := "t", createdAt := .jnull, summary := "hello",
    transcript := "", sourceUrl := "" }

/-- Counterexample for C10: against a schema whose `Name` property is
rich-text typed, the summary-property picker resolves to `"Name"` and the
assignment `props[summaryPropName] = …` *overwrites* the Name title with the
summary rich text, so the built payload does not always contain a Name
*title* property. -/
theorem buildNotionProperties_name_overwritten_counterexample :
    propLookup (buildNotionProperties parse0 "2024-01-01T00:00:00.000Z"
        recSummaryOnly "https://web.plaud.ai" [("Name", "rich_text")]) "Name" =
      some (.rich_text ["hello"]) ∧
    propLookup (buildNotionProperties parse0 "2024-01-01T00:00:00.000Z"
        recSummaryOnly "https://web.plaud.ai" [("Name", "rich_text")]) "Name" ≠
      some (.title (recordingDisplayName parse0 recSummaryOnly)) := by
  exact ⟨by decide, by decide⟩

/-- Claim C10 (amended): for every record and every schema in which the
summary-property picker does not resolve to `"Name"` or `"Date"`, the built
payload (before schema filtering) contains a `Name` title property and a
`Date` date property; the Date value falls back to the build-time clock
`now` whenever `createdAt` is absent or fails to parse (i.e. whenever
`toNotionDate` yields `none`), so a fabricated timestamp is written for
records whose source never supplied one. -/
theorem buildNotionProperties_name_date (parse : JVal → Option String)
    (now : String) (rec : Recording) (baseUrl : String)
    (dbProperties : List (String × String))
    (h : (pickSummaryPropertyName dbProperties).all
      (fun n => n != "Name" && n != "Date") = true) :
    propLookup (buildNotionProperties parse now rec baseUrl dbProperties)
        "Name" = some (.title (recordingDisplayName parse rec)) ∧
      propLookup (buildNotionProperties parse now rec baseUrl dbProperties)
        "Date" = some (.date ((toNotionDate parse rec.createdAt).getD now)) := by
  have hName : (pickSummaryPropertyName dbProperties).all (fun n => n != "Name") = true := by
    rcases hpick : pickSummaryPropertyName dbProperties with _ | n
    · rfl
    · rw [hpick] at h
      simp only [Option.all, Bool.and_eq_true] at h ⊢
      exact h.1
  have hDate : (pickSummaryPropertyName dbProperties).all (fun n => n != "Date") = true := by
    rcases hpick : pickSummaryPropertyName dbProperties with _ | n
    · rfl
    · rw [hpick] at h
      simp only [Option.all, Bool.and_eq_true] at h ⊢
      exact h.2
  constructor
  · rw [buildNotionProperties,
      sourceStage_lookup_ne _ _ _ _ _ (by decide),
      summaryStage_lookup_ne _ _ _ _ hName]
    rfl
  · rw [buildNotionProperties,
      sourceStage_lookup_ne _ _ _ _ _ (by decide),
      summaryStage_lookup_ne _ _ _ _ hDate]
    rfl

/-- Witness for C10 (amended) at a record with an absent `createdAt`: the
Date property carries the build-time clock. -/
theorem buildNotionProperties_name_date_witness :
    (pickSummaryPropertyName schema0).all (fun n => n != "Name" && n != "Date") = true ∧
      propLookup (buildNotionProperties parse0 "2024-01-01T00:00:00.000Z" rec10
          "https://web.plaud.ai" schema0) "Name" =
        some (.title (recordingDisplayName parse0 rec10)) ∧
      propLookup (buildNotionProperties parse0 "2024-01-01T00:00:00.000Z" rec10
          "https://web.plaud.ai" schema0) "Date" =
        some (.date ((toNotionDate parse0 rec10.createdAt).getD
          "2024-01-01T00:00:00.000Z")) :=
  ⟨by decide,
    buildNotionProperties_name_date parse0 "2024-01-01T00:00:00.000Z" rec10
      "https://web.plaud.ai" schema0 (by decide)⟩

/-! ## Claim C4 — reconciler idempotence

The amended idempotence statement quantifies over batches whose records all
carry non-empty, pairwise distinct identities, against a schema with a
rich-text `Source` property, under the side conditions the marker scheme
needs (markers short enough to survive the 1900-character truncation, and no
record's marker occurring inside another record's stored source text). -/

/-- The page mirrors the record: its `Source` property holds the record's
dedup marker text. -/
def SourceOk (cfg : Cfg) (r : Recording) (p : Page) : Prop :=
  propLookup p.props "Source" =
    some (.rich_text [sourceMarkerText cfg.baseUrl r])

/-- The hypotheses of the amended idempotence claim. -/
structure BatchHyps (cfg : Cfg) (recs : List Recording) : Prop where
  hsrc : schemaType cfg.dbProperties "Source" = some "rich_text"
  hid : ∀ r ∈ recs, r.id ≠ ""
  hnodup : (recs.map (fun r => r.id)).Nodup
  hlen : ∀ r ∈ recs, ("Plaud:" ++ r.id).length ≤ 1900
  hdisj : ∀ r ∈ recs, ∀ r' ∈ recs, r.id ≠ r'.id →
    strContains (sourceMarkerText cfg.baseUrl r') ("Plaud:" ++ r.id) = false
  hok : ∀ r, cfg.writeFails r = false

theorem shouldUpsert_of_id (rec : Recording) (h : rec.id ≠ "") :
    shouldUpsert rec = true := by
  unfold shouldUpsert
  simp [h]

theorem noiseAdjust_marker (baseUrl : String) (seen : List (String × Nat))
    (rec : Recording) :
    sourceMarkerText baseUrl (noiseAdjust seen rec).1 =
      sourceMarkerText baseUrl rec := by
  unfold sourceMarkerText buildPlaudRecordingUrl
  rw [noiseAdjust_id, noiseAdjust_sourceUrl]

theorem pickSummaryPropertyName_ne_source
    (dbProperties : List (String × String)) (n : String)
    (h : pickSummaryPropertyName dbProperties = some n) : n ≠ "Source" := by
  unfold pickSummaryPropertyName at h
  split at h
  · next name hname =>
    have hmem := List.mem_of_find?_eq_some hname
    simp only [Option.some.injEq] at h
    subst h
    simp only [List.mem_cons, List.not_mem_nil, or_false] at hmem
    rcases hmem with rfl | rfl | rfl | rfl <;> decide
  · obtain ⟨p, hp, hpe⟩ := Option.map_eq_some'.mp h
    have := List.find?_some hp
    simp only [Bool.and_eq_true, bne_iff_ne, ne_eq] at this
    rw [← hpe]
    exact this.1

theorem notionPropsBase_keys (parse : JVal → Option String) (now : String)
    (rec : Recording) :
    ∀ p ∈ notionPropsBase parse now rec, p.1 ≠ "Source" := by
  intro p hp
  simp only [notionPropsBase, List.mem_cons, List.not_mem_nil, or_false] at hp
  rcases hp with rfl | rfl <;> simp

theorem summaryStage_keys (dbProperties : List (String × String))
    (rec : Recording) (props : List (String × NProp))
    (hprops : ∀ p ∈ props, p.1 ≠ "Source") :
    ∀ p ∈ summaryStage dbProperties rec props, p.1 ≠ "Source" := by
  unfold summaryStage
  rcases hpick : pickSummaryPropertyName dbProperties with _ | n
  · exact hprops
  · have hn := pickSummaryPropertyName_ne_source dbProperties n hpick
    show ∀ p ∈ (if rec.summary ≠ "" then
        objSet props n (NProp.rich_text [strTake rec.summary 1900])
      else if rec.clearSummary = true then objSet props n (NProp.rich_text [])
      else props), p.1 ≠ "Source"
    split
    · exact objSet_keys_ne _ _ _ _ hprops hn
    · split
      · exact objSet_keys_ne _ _ _ _ hprops hn
      · exact hprops

theorem source_mem_schema_names (dbProperties : List (String × String))
    (t : String) (h : schemaType dbProperties "Source" = some t) :
    "Source" ∈ dbProperties.map Prod.fst := by
  unfold schemaType at h
  obtain ⟨p, hp, _⟩ := Option.map_eq_some'.mp h
  have h1 := List.find?_some hp
  have h2 := List.mem_of_find?_eq_some hp
  refine List.mem_map.mpr ⟨p, h2, ?_⟩
  simpa using h1

/-- The filtered write payload of an identified record, against a rich-text
`Source` schema, ends in the `Source` marker entry, and no earlier entry is
named `Source`. -/
theorem writeProps_source_structure (cfg : Cfg) (rec : Recording)
    (hid : rec.id ≠ "")
    (hsrc : schemaType cfg.dbProperties "Source" = some "rich_text") :
    ∃ X, filterPropertiesForDatabase
        (buildNotionProperties cfg.parse cfg.now rec cfg.baseUrl cfg.dbProperties)
        (cfg.dbProperties.map Prod.fst)
      = X ++ [("Source", .rich_text [sourceMarkerText cfg.baseUrl rec])]
      ∧ ∀ p ∈ X, p.1 ≠ "Source" := by
  have hmid := summaryStage_keys cfg.dbProperties rec _
    (notionPropsBase_keys cfg.parse cfg.now rec)
  have hurl : ¬(schemaType cfg.dbProperties "Source" = some "url") := by
    rw [hsrc]; decide
  have hbuild : buildNotionProperties cfg.parse cfg.now rec cfg.baseUrl cfg.dbProperties
      = summaryStage cfg.dbProperties rec (notionPropsBase cfg.parse cfg.now rec)
        ++ [("Source", .rich_text [sourceMarkerText cfg.baseUrl rec])] := by
    unfold buildNotionProperties sourceStage
    rw [if_pos hid, if_neg hurl]
    exact objSet_eq_append _ _ _ hmid
  refine ⟨(summaryStage cfg.dbProperties rec
      (notionPropsBase cfg.parse cfg.now rec)).filter
        (fun p => (cfg.dbProperties.map Prod.fst).contains p.1), ?_, ?_⟩
  · rw [hbuild]
    unfold filterPropertiesForDatabase
    rw [List.filter_append]
    congr 1
    have hmem := source_mem_schema_names cfg.dbProperties _ hsrc
    simp [List.filter, hmem]
  · intro p hp
    exact hmid p (List.mem_of_mem_filter hp)

theorem propLookup_mergeProps_last (X : List (String × NProp)) (k : String)
    (v : NProp) (hX : ∀ p ∈ X, p.1 ≠ k) :
    ∀ old, propLookup
      (List.foldl (fun acc kv => objSet acc kv.1 kv.2) old (X ++ [(k, v)])) k
      = some v := by
  induction X with
  | nil =>
      intro old
      show propLookup (objSet old k v) k = some v
      exact propLookup_objSet_self old k v
  | cons p X ih =>
      intro old
      rw [List.cons_append, List.foldl_cons]
      exact ih (fun q hq => hX q (List.mem_cons_of_mem _ hq)) _

theorem forall₂_append_single {α β : Type} {R : α → β → Prop}
    {l1 : List α} {l2 : List β} (h : List.Forall₂ R l1 l2) {a : α} {b : β}
    (hab : R a b) : List.Forall₂ R (l1 ++ [a]) (l2 ++ [b]) := by
  induction h with
  | nil => exact List.Forall₂.cons hab List.Forall₂.nil
  | cons h1 _ ih => exact List.Forall₂.cons h1 ih

theorem forall₂_mem_right {α β : Type} {R : α → β → Prop}
    {l : List α} {u : List β} (h : List.Forall₂ R l u) {b : β} (hb : b ∈ u) :
    ∃ a ∈ l, R a b := by
  induction h with
  | nil => cases hb
  | cons h1 _ ih =>
      rcases List.mem_cons.mp hb with rfl | hb
      · exact ⟨_, List.mem_cons_self _ _, h1⟩
      · obtain ⟨a, ha, hr⟩ := ih hb
        exact ⟨a, List.mem_cons_of_mem _ ha, hr⟩

theorem forall₂_split_left {α β : Type} {R : α → β → Prop} :
    ∀ (l1 : List α) (a : α) (l2 : List α) (u : List β),
      List.Forall₂ R (l1 ++ a :: l2) u →
      ∃ A b B, u = A ++ b :: B ∧ List.Forall₂ R l1 A ∧ R a b ∧
        List.Forall₂ R l2 B := by
  intro l1
  induction l1 with
  | nil =>
      intro a l2 u h
      rw [List.nil_append] at h
      obtain ⟨b, u', hr, hf, rfl⟩ := List.forall₂_cons_left_iff.mp h
      exact ⟨[], b, u', rfl, List.Forall₂.nil, hr, hf⟩
  | cons x l1 ih =>
      intro a l2 u h
      rw [List.cons_append] at h
      obtain ⟨b0, u', hr0, hf, rfl⟩ := List.forall₂_cons_left_iff.mp h
      obtain ⟨A, b, B, rfl, hfa, hr, hfb⟩ := ih a l2 u' hf
      exact ⟨b0 :: A, b, B, rfl, List.Forall₂.cons hr0 hfa, hr, hfb⟩

theorem find?_append_first {α : Type} (p : α → Bool) (A : List α) (pk : α)
    (B : List α) (hA : ∀ q ∈ A, p q = false) (hpk : p pk = true) :
    (A ++ pk :: B).find? p = some pk := by
  induction A with
  | nil => exact List.find?_cons_of_pos _ hpk
  | cons x A ih =>
      rw [List.cons_append,
        List.find?_cons_of_neg _ (by simp [hA x (List.mem_cons_self _ _)])]
      exact ih (fun q hq => hA q (List.mem_cons_of_mem _ hq))

theorem strContains_strTake_prefix (m rest : String) (n : Nat)
    (h : m.length ≤ n) : strContains (strTake (m ++ rest) n) m = true := by
  unfold strContains strTake
  rw [decide_eq_true_iff]
  show m.data <:+: ((m ++ rest).data.take n)
  rw [String.data_append]
  have hlen2 : m.data.length ≤ n := h
  have hpref : ((m.data ++ rest.data).take n).take m.data.length = m.data := by
    rw [List.take_take, inf_eq_left.mpr hlen2, List.take_left]
  have hp2 := List.take_prefix m.data.length ((m.data ++ rest.data).take n)
  rw [hpref] at hp2
  obtain ⟨t, ht⟩ := hp2
  exact ⟨[], t, by simpa using ht⟩

theorem strContains_marker_self (baseUrl : String) (rec : Recording)
    (hlen : ("Plaud:" ++ rec.id).length ≤ 1900) :
    strContains (sourceMarkerText baseUrl rec) ("Plaud:" ++ rec.id) = true := by
  unfold sourceMarkerText
  exact strContains_strTake_prefix _ _ _ hlen

/-- Both by-pid page rewrites touch only the one page with the given pid. -/
theorem map_pid_update (A : List Page) (pk : Page) (B : List Page) (i : Nat)
    (g : Page → Page) (hi : pk.pid = i) (hA : ∀ q ∈ A, q.pid ≠ i)
    (hB : ∀ q ∈ B, q.pid ≠ i) :
    (A ++ pk :: B).map (fun p => if p.pid = i then g p else p) =
      A ++ g pk :: B := by
  rw [List.map_append, List.map_cons, if_pos hi]
  congr 1
  · rw [List.map_congr_left (fun q hq => by rw [if_neg (hA q hq)])]
    simp
  · congr 1
    rw [List.map_congr_left (fun q hq => by rw [if_neg (hB q hq)])]
    simp

theorem pageRichTextProp_of_sourceOk {cfg : Cfg} {r : Recording} {p : Page}
    (h : SourceOk cfg r p) :
    pageRichTextProp p "Source" = sourceMarkerText cfg.baseUrl r := by
  unfold pageRichTextProp
  rw [h]
  rfl

theorem propLookup_writeProps_source (cfg : Cfg) (rec : Recording)
    (hid : rec.id ≠ "")
    (hsrc : schemaType cfg.dbProperties "Source" = some "rich_text") :
    propLookup (filterPropertiesForDatabase
        (buildNotionProperties cfg.parse cfg.now rec cfg.baseUrl cfg.dbProperties)
        (cfg.dbProperties.map Prod.fst)) "Source" =
      some (.rich_text [sourceMarkerText cfg.baseUrl rec]) := by
  obtain ⟨X, hX, hXs⟩ := writeProps_source_structure cfg rec hid hsrc
  rw [hX]
  apply propLookup_append_self
  rw [List.any_eq_false]
  intro p hp
  simpa using hXs p hp

theorem nodup_split_ne {recs pre post : List Recording} {r : Recording}
    (hsplit : recs = pre ++ r :: post)
    (hnd : (recs.map (fun x => x.id)).Nodup) :
    ∀ r' ∈ pre, r.id ≠ r'.id := by
  subst hsplit
  rw [List.map_append, List.map_cons, List.nodup_append] at hnd
  intro r' hr' he
  exact hnd.2.2 (List.mem_map.mpr ⟨r', hr', rfl⟩)
    (he ▸ List.mem_cons_self _ _)

/-- First run: against a store whose pages mirror the previously processed
prefix, each remaining record is not found by the dedup lookup and is
created, appending its mirrored page. -/
theorem run1_aux (cfg : Cfg) (recs : List Recording) (H : BatchHyps cfg recs) :
    ∀ (post pre : List Recording) (st : RunState),
      recs = pre ++ post →
      List.Forall₂ (SourceOk cfg) pre st.store.pages →
      (∀ p ∈ st.store.pages, p.pid < st.store.nextId) →
      (st.store.pages.map (fun p => p.pid)).Nodup →
      ∃ st', runLoop cfg st post = .ok st' ∧
        st'.created = st.created + post.length ∧
        st'.updated = st.updated ∧
        List.Forall₂ (SourceOk cfg) recs st'.store.pages ∧
        (st'.store.pages.map (fun p => p.pid)).Nodup := by
  intro post
  induction post with
  | nil =>
      intro pre st hsplit hfa hbound hnd
      rw [List.append_nil] at hsplit
      subst hsplit
      exact ⟨st, rfl, by simp, rfl, hfa, hnd⟩
  | cons r post ih =>
      intro pre st hsplit hfa hbound hnd
      have hrmem : r ∈ recs := by
        rw [hsplit]; exact List.mem_append.mpr (Or.inr (List.mem_cons_self _ _))
      have hrid : r.id ≠ "" := H.hid r hrmem
      set rec2 := (noiseAdjust st.seenSummaries r).1 with hrec2
      have hid2 : rec2.id = r.id := noiseAdjust_id _ _
      have hurl : ¬(schemaType cfg.dbProperties "Source" = some "url") := by
        rw [H.hsrc]; decide
      have hne := nodup_split_ne hsplit H.hnodup
      have hfind : findExistingPageByPlaudId st.store cfg.dbProperties rec2.id
          cfg.baseUrl = none := by
        rw [hid2]
        unfold findExistingPageByPlaudId
        rw [if_neg hrid, if_neg hurl, if_pos H.hsrc]
        apply List.find?_eq_none.mpr
        intro p hp hcontra
        obtain ⟨r', hr'mem, hok'⟩ := forall₂_mem_right hfa hp
        rw [pageRichTextProp_of_sourceOk hok'] at hcontra
        have := H.hdisj r hrmem r' (by rw [hsplit]; exact List.mem_append.mpr (Or.inl hr'mem))
          (hne r' hr'mem)
        rw [this] at hcontra
        cases hcontra
      have hw : writeRecordingToNotion cfg st.store rec2 =
          (createPage st.store
            (filterPropertiesForDatabase
              (buildNotionProperties cfg.parse cfg.now rec2 cfg.baseUrl cfg.dbProperties)
              (cfg.dbProperties.map Prod.fst))
            (buildTranscriptChildren rec2 cfg.baseUrl).length, Mode.created) := by
        unfold writeRecordingToNotion
        rw [hfind]
      have hstep : ∃ st1, stepRec cfg st r = .ok st1 ∧
          st1.store = createPage st.store
            (filterPropertiesForDatabase
              (buildNotionProperties cfg.parse cfg.now rec2 cfg.baseUrl cfg.dbProperties)
              (cfg.dbProperties.map Prod.fst))
            (buildTranscriptChildren rec2 cfg.baseUrl).length ∧
          st1.created = st.created + 1 ∧ st1.updated = st.updated := by
        unfold stepRec
        rw [shouldUpsert_of_id r hrid]
        simp only [Bool.true_eq_false, if_false]
        rw [← hrec2, H.hok rec2]
        simp only [Bool.false_eq_true, if_false, hw]
        exact ⟨_, rfl, rfl, by simp, by simp⟩
      obtain ⟨st1, hstep, hstore1, hcr1, hup1⟩ := hstep
      have hsplit' : recs = (pre ++ [r]) ++ post := by
        rw [hsplit, List.append_assoc, List.singleton_append]
      have hnew : SourceOk cfg r
          ⟨st.store.nextId,
            filterPropertiesForDatabase
              (buildNotionProperties cfg.parse cfg.now rec2 cfg.baseUrl cfg.dbProperties)
              (cfg.dbProperties.map Prod.fst),
            (buildTranscriptChildren rec2 cfg.baseUrl).length⟩ := by
        unfold SourceOk
        show propLookup (filterPropertiesForDatabase
          (buildNotionProperties cfg.parse cfg.now rec2 cfg.baseUrl cfg.dbProperties)
          (cfg.dbProperties.map Prod.fst)) "Source" = _
        rw [propLookup_writeProps_source cfg rec2 (hid2 ▸ hrid) H.hsrc,
          hrec2, noiseAdjust_marker]
      have hfa1 : List.Forall₂ (SourceOk cfg) (pre ++ [r]) st1.store.pages := by
        rw [hstore1]
        exact forall₂_append_single hfa hnew
      have hbound1 : ∀ p ∈ st1.store.pages, p.pid < st1.store.nextId := by
        rw [hstore1]
        intro p hp
        rcases List.mem_append.mp hp with h1 | h2
        · exact Nat.lt_succ_of_lt (hbound p h1)
        · simp only [List.mem_singleton] at h2
          rw [h2]
          exact Nat.lt_succ_self _
      have hnd1 : (st1.store.pages.map (fun p => p.pid)).Nodup := by
        rw [hstore1]
        unfold createPage
        dsimp only
        rw [List.map_append, List.map_cons, List.map_nil, List.nodup_append]
        refine ⟨hnd, List.nodup_singleton _, ?_⟩
        intro a ha hb
        simp only [List.mem_singleton] at hb
        obtain ⟨p, hp, hpe⟩ := List.mem_map.mp ha
        have := hbound p hp
        omega
      obtain ⟨st', hloop, hcr, hup, hfa', hnd'⟩ :=
        ih (pre ++ [r]) st1 hsplit' hfa1 hbound1 hnd1
      refine ⟨st', ?_, ?_, ?_, hfa', hnd'⟩
      · unfold runLoop
        rw [hstep]
        exact hloop
      · rw [hcr, hcr1, List.length_cons]
        omega
      · rw [hup, hup1]

/-- Second run: against a store whose pages mirror the whole batch, every
record is found by the dedup lookup and is updated in place, never
created; the mirroring survives the update. -/
theorem run2_aux (cfg : Cfg) (recs : List Recording) (H : BatchHyps cfg recs) :
    ∀ (post pre : List Recording) (st : RunState),
      recs = pre ++ post →
      List.Forall₂ (SourceOk cfg) recs st.store.pages →
      (st.store.pages.map (fun p => p.pid)).Nodup →
      ∃ st', runLoop cfg st post = .ok st' ∧
        st'.created = st.created ∧
        st'.updated = st.updated + post.length ∧
        List.Forall₂ (SourceOk cfg) recs st'.store.pages ∧
        (st'.store.pages.map (fun p => p.pid)).Nodup := by
  intro post
  induction post with
  | nil =>
      intro pre st _ hfa hnd
      exact ⟨st, rfl, rfl, by simp, hfa, hnd⟩
  | cons r post ih =>
      intro pre st hsplit hfa hnd
      have hrmem : r ∈ recs := by
        rw [hsplit]; exact List.mem_append.mpr (Or.inr (List.mem_cons_self _ _))
      have hrid : r.id ≠ "" := H.hid r hrmem
      set rec2 := (noiseAdjust st.seenSummaries r).1 with hrec2
      have hid2 : rec2.id = r.id := noiseAdjust_id _ _
      have hurl : ¬(schemaType cfg.dbProperties "Source" = some "url") := by
        rw [H.hsrc]; decide
      have hne := nodup_split_ne hsplit H.hnodup
      obtain ⟨A, pk, B, hpages, hfaA, hokpk, hfaB⟩ := by
        have hfa' := hfa
        rw [hsplit] at hfa'
        exact forall₂_split_left pre r post _ hfa'
      have hndp := hnd
      rw [hpages, List.map_append, List.map_cons, List.nodup_append] at hndp
      have hApid : ∀ q ∈ A, q.pid ≠ pk.pid := by
        intro q hq he
        exact hndp.2.2 (List.mem_map.mpr ⟨q, hq, rfl⟩)
          (he ▸ List.mem_cons_self _ _)
      have hBpid : ∀ q ∈ B, q.pid ≠ pk.pid := by
        intro q hq he
        exact (List.nodup_cons.mp hndp.2.1).1
          (List.mem_map.mpr ⟨q, hq, he⟩)
      have hfind : findExistingPageByPlaudId st.store cfg.dbProperties rec2.id
          cfg.baseUrl = some pk := by
        rw [hid2]
        unfold findExistingPageByPlaudId
        rw [if_neg hrid, if_neg hurl, if_pos H.hsrc, hpages]
        apply find?_append_first
        · intro q hq
          obtain ⟨r', hr'm, hokq⟩ := forall₂_mem_right hfaA hq
          rw [pageRichTextProp_of_sourceOk hokq]
          exact H.hdisj r hrmem r'
            (by rw [hsplit]; exact List.mem_append.mpr (Or.inl hr'm))
            (hne r' hr'm)
        · rw [pageRichTextProp_of_sourceOk hokpk]
          exact strContains_marker_self cfg.baseUrl r (H.hlen r hrmem)
      -- the filtered payload and its Source entry
      obtain ⟨X, hX, hXs⟩ :=
        writeProps_source_structure cfg rec2 (hid2 ▸ hrid) H.hsrc
      have hmerge : ∀ old, propLookup
          (List.foldl (fun acc kv => objSet acc kv.1 kv.2) old
            (filterPropertiesForDatabase
              (buildNotionProperties cfg.parse cfg.now rec2 cfg.baseUrl cfg.dbProperties)
              (cfg.dbProperties.map Prod.fst))) "Source" =
          some (.rich_text [sourceMarkerText cfg.baseUrl r]) := by
        intro old
        rw [hX, propLookup_mergeProps_last X _ _ hXs old, hrec2, noiseAdjust_marker]
      have hkey : ∃ pkX : Page, pkX.pid = pk.pid ∧ SourceOk cfg r pkX ∧
          writeRecordingToNotion cfg st.store rec2 =
            ({ pages := A ++ pkX :: B, nextId := st.store.nextId }, Mode.updated) := by
        have hs1 : updatePageProps st.store pk.pid
            (filterPropertiesForDatabase
              (buildNotionProperties cfg.parse cfg.now rec2 cfg.baseUrl cfg.dbProperties)
              (cfg.dbProperties.map Prod.fst)) =
            { pages := A ++
                ({ pid := pk.pid,
                   props := (List.foldl (fun acc kv => objSet acc kv.1 kv.2)
                      pk.props
                      (filterPropertiesForDatabase
                        (buildNotionProperties cfg.parse cfg.now rec2 cfg.baseUrl cfg.dbProperties)
                        (cfg.dbProperties.map Prod.fst))),
                   blocks := pk.blocks } : Page) :: B,
              nextId := st.store.nextId } := by
          unfold updatePageProps
          rw [hpages]
          congr 1
          exact map_pid_update A pk B pk.pid _ rfl hApid hBpid
        by_cases hc : (buildTranscriptChildren rec2 cfg.baseUrl).length ≠ 0 ∧ pk.blocks < 3
        · refine ⟨({ pid := pk.pid,
                     props := (List.foldl (fun acc kv => objSet acc kv.1 kv.2) pk.props
                       (filterPropertiesForDatabase
                         (buildNotionProperties cfg.parse cfg.now rec2 cfg.baseUrl cfg.dbProperties)
                         (cfg.dbProperties.map Prod.fst))),
                     blocks := (pk.blocks + (buildTranscriptChildren rec2 cfg.baseUrl).length) } : Page),
            rfl, hmerge pk.props, ?_⟩
          unfold writeRecordingToNotion
          rw [hfind]
          dsimp only
          rw [if_pos hc, hs1]
          unfold appendPageBlocks
          congr 2
          exact map_pid_update A _ B pk.pid _ rfl hApid hBpid
        · refine ⟨({ pid := pk.pid,
                     props := (List.foldl (fun acc kv => objSet acc kv.1 kv.2) pk.props
                       (filterPropertiesForDatabase
                         (buildNotionProperties cfg.parse cfg.now rec2 cfg.baseUrl cfg.dbProperties)
                         (cfg.dbProperties.map Prod.fst))),
                     blocks := pk.blocks } : Page),
            rfl, hmerge pk.props, ?_⟩
          unfold writeRecordingToNotion
          rw [hfind]
          dsimp only
          rw [if_neg hc, hs1]
      obtain ⟨pkX, hXpid, hXok, hw⟩ := hkey
      have hstep : ∃ st1, stepRec cfg st r = .ok st1 ∧
          st1.store = { pages := A ++ pkX :: B, nextId := st.store.nextId } ∧
          st1.created = st.created ∧ st1.updated = st.updated + 1 := by
        unfold stepRec
        rw [shouldUpsert_of_id r hrid]
        simp only [Bool.true_eq_false, if_false]
        rw [← hrec2, H.hok rec2]
        simp only [Bool.false_eq_true, if_false, hw]
        exact ⟨_, rfl, rfl, by simp, by simp⟩
      obtain ⟨st1, hstep, hstore1, hcr1, hup1⟩ := hstep
      have hsplit' : recs = (pre ++ [r]) ++ post := by
        rw [hsplit, List.append_assoc, List.singleton_append]
      have hfa1 : List.Forall₂ (SourceOk cfg) recs st1.store.pages := by
        rw [hstore1, hsplit]
        exact List.rel_append hfaA (List.Forall₂.cons hXok hfaB)
      have hnd1 : (st1.store.pages.map (fun p => p.pid)).Nodup := by
        rw [hstore1]
        have : ((A ++ pkX :: B).map (fun p => p.pid)) =
            ((A ++ pk :: B).map (fun p => p.pid)) := by
          rw [List.map_append, List.map_cons, List.map_append, List.map_cons, hXpid]
        show ((A ++ pkX :: B).map (fun p => p.pid)).Nodup
        rw [this, ← hpages]
        exact hnd
      obtain ⟨st', hloop, hcr, hup, hfa', hnd'⟩ :=
        ih (pre ++ [r]) st1 hsplit' hfa1 hnd1
      refine ⟨st', ?_, ?_, ?_, hfa', hnd'⟩
      · unfold runLoop
        rw [hstep]
        exact hloop
      · rw [hcr, hcr1]
      · rw [hup, hup1, List.length_cons]
        omega

/-- Counterexample for C4: a batch holding one identified but *not useful*
record, against an empty destination, creates one page on the first run —
not "exactly one page per useful, identified record", which would be zero
here.  Usefulness never gates the write. -/
theorem reconciler_idempotence_counterexample :
    recNoContent.id ≠ "" ∧ hasUsefulContent recNoContent = false ∧
      (runMain cfg0 emptyStore [] [recNoContent]).toOption.map
        (fun r => r.state.created) = some 1 := by
  exact ⟨by decide, by decide, by decide⟩

/-- Claim C4 (amended): running the loop twice over an identical batch
against an initially empty destination creates exactly one page per record
passing the upsert gate — which, for identified records, is every record,
useful or not — and the second run performs zero additional creates: every
record is found by the dedup lookup and becomes an update.  This holds
provided the destination schema has a rich-text `Source` property, the
records carry non-empty pairwise-distinct identities, the dedup markers
survive the 1900-character truncation, no record's marker occurs inside
another record's stored source text, and the remote writes succeed. -/
theorem reconciler_idempotence (cfg : Cfg) (recs : List Recording)
    (l1 l2 : List String) (H : BatchHyps cfg recs) :
    ∃ st1 st2,
      runLoop cfg (initRunState emptyStore l1) recs = .ok st1 ∧
      st1.created = recs.length ∧
      runLoop cfg (initRunState st1.store l2) recs = .ok st2 ∧
      st2.created = 0 ∧ st2.updated = recs.length := by
  obtain ⟨st1, h1, hc1, _, hfa1, hnd1⟩ :=
    run1_aux cfg recs H recs [] (initRunState emptyStore l1) rfl
      List.Forall₂.nil
      (by intro p hp; simp [initRunState, emptyStore] at hp)
      (by simp [initRunState, emptyStore])
  obtain ⟨st2, h2, hc2, hu2, _, _⟩ :=
    run2_aux cfg recs H recs [] (initRunState st1.store l2) rfl hfa1 hnd1
  refine ⟨st1, st2, h1, ?_, h2, ?_, ?_⟩
  · rw [hc1]; simp [initRunState]
  · rw [hc2]; simp [initRunState]
  · rw [hu2]; simp [initRunState]

/-- Witness for C4 (amended) at a concrete two-record batch (one useful
record would behave identically; here one record is low-signal and one has a
short summary — both identified). -/
theorem reconciler_idempotence_witness :
    ∃ st1 st2,
      runLoop cfg0 (initRunState emptyStore []) [rec10, recNoContent] = .ok st1 ∧
      st1.created = [rec10, recNoContent].length ∧
      runLoop cfg0 (initRunState st1.store []) [rec10, recNoContent] = .ok st2 ∧
      st2.created = 0 ∧ st2.updated = [rec10, recNoContent].length :=
  reconciler_idempotence cfg0 [rec10, recNoContent] [] []
    ⟨by decide, by decide, by decide, by decide, by decide, fun _ => rfl⟩

end PlaudSync
